import Mathlib

/-!
Verification of the Twitter planning components of the OpenManus repository:
the plan store (`app/tool/twitter_planning.py`, class `TwitterPlanningTool`)
and the execution loop (`app/flow/twitter_planning_flow.py`, class
`TwitterPlanningFlow`).

The embedding is shallow: plan dictionaries become structures, the mutable
store becomes explicit state passing, Python `raise ToolError(...)` becomes
`Except ToolErr`, and Python truthiness tests (`if not plan_id`, `if title`,
`if posts`, `if post_status`, `if post_notes`) are modelled by explicit
truthiness functions.  External collaborators (the LLM and the executor
agents) are oracles: each loop iteration consumes one prescribed executor
outcome, and the finalization summary is a parameter.  Prompt construction
and the human-readable plan rendering feed only those oracles, so they are
not modelled.
-/

/-- A planned post.  Python represents a post as a dict whose schema keys are
`content`, `hashtags`, `image_prompt`, `scheduled_time`; an `Option` field
set to `none` models an absent key, so structure equality coincides with the
dict equality `post == old_posts[i]` used by the update merge. -/
structure Post where
  content : Option String
  hashtags : Option (List String)
  image_prompt : Option String
  scheduled_time : Option String
deriving DecidableEq, Repr

/-- A stored plan (the dict built by `TwitterPlanningTool._create_plan`). -/
structure TwitterPlan where
  plan_id : String
  title : String
  posts : List Post
  post_statuses : List String
  post_notes : List String
deriving DecidableEq, Repr

/-- The mutable state of `TwitterPlanningTool`: the insertion-ordered dict
`plans` and the active-plan pointer `_current_plan_id`. -/
structure PlanStore where
  plans : List (String × TwitterPlan)
  current_plan_id : Option String
deriving DecidableEq, Repr

/-- The initial store: `plans = {}`, `_current_plan_id = None`. -/
def emptyStore : PlanStore := { plans := [], current_plan_id := none }

/-- Python truthiness of an optional string argument: `None` and `""` are
falsy, every other string is truthy. -/
def optTruthy : Option String → Bool
  | none => false
  | some s => s != ""

/-- Dict lookup `plans[plan_id]` / membership `plan_id in plans`. -/
def lookupPlan : List (String × TwitterPlan) → String → Option TwitterPlan
  | [], _ => none
  | (k, v) :: rest, pid => if k = pid then some v else lookupPlan rest pid

/-- Dict assignment `plans[plan_id] = plan`: replaces the entry in place when
the key exists, otherwise appends at the end (Python dicts keep insertion
order). -/
def setPlanList : List (String × TwitterPlan) → String → TwitterPlan → List (String × TwitterPlan)
  | [], pid, p => [(pid, p)]
  | (k, v) :: rest, pid, p =>
    if k = pid then (pid, p) :: rest else (k, v) :: setPlanList rest pid p

/-- Dict deletion `del plans[plan_id]` (keys are unique in every reachable
store, so removing the first occurrence is exact). -/
def removePlanList : List (String × TwitterPlan) → String → List (String × TwitterPlan)
  | [], _ => []
  | (k, v) :: rest, pid => if k = pid then rest else (k, v) :: removePlanList rest pid

/-- Store assignment at the level of whole states. -/
def setPlan (s : PlanStore) (pid : String) (p : TwitterPlan) : PlanStore :=
  { s with plans := setPlanList s.plans pid p }

/-- The distinct `ToolError` raise sites of `TwitterPlanningTool`, plus
`pyIndexError` for the `IndexError` Python list indexing would raise when a
status/notes list is shorter than the posts list (unreachable from any store
built by the tool itself, where the lists stay aligned). -/
inductive ToolErr where
  | missingParam (param : String) (cmd : String)
  | alreadyExists (pid : String)
  | invalidPosts (cmd : String)
  | notFound (pid : String)
  | noActivePlan
  | missingPostIndex
  | invalidPostIndex (idx : Int)
  | invalidPostStatus (st : String)
  | pyIndexError
deriving DecidableEq, Repr

/-- Rendering of an error for the flow's whole-run failure message
(`f"Execution failed: {str(e)}"`).  Quoting punctuation of the original
messages is omitted; no claim depends on the message text. -/
def toolErrMsg : ToolErr → String
  | .missingParam param cmd => "Parameter " ++ param ++ " is required for command: " ++ cmd
  | .alreadyExists pid =>
      "A plan with ID " ++ pid ++ " already exists. Use update to modify existing plans."
  | .invalidPosts cmd =>
      "Parameter posts must be a non-empty list of post objects for command: " ++ cmd
  | .notFound pid => "No plan found with ID: " ++ pid
  | .noActivePlan => "No active plan. Please specify a plan_id or set an active plan."
  | .missingPostIndex => "Parameter post_index is required for command: mark_post"
  | .invalidPostIndex idx => "Invalid post_index: " ++ toString idx
  | .invalidPostStatus st => "Invalid post_status: " ++ st
  | .pyIndexError => "list assignment index out of range"

/-- The recognized status values (`["draft", "ready", "posted", "failed"]`). -/
def validStatuses : List String := ["draft", "ready", "posted", "failed"]

namespace TwitterPlanningTool

/-- `TwitterPlanningTool._create_plan`.  Checks run in source order:
required `plan_id`, duplicate id, required `title`, non-empty `posts`; on
success all statuses start as `"draft"`, all notes as `""`, and the new plan
becomes active. -/
def createPlan (s : PlanStore) (plan_id title : Option String)
    (posts : Option (List Post)) : Except ToolErr PlanStore :=
  if ¬ optTruthy plan_id then .error (.missingParam "plan_id" "create")
  else
    let pid := plan_id.getD ""
    match lookupPlan s.plans pid with
    | some _ => .error (.alreadyExists pid)
    | none =>
      if ¬ optTruthy title then .error (.missingParam "title" "create")
      else
        match posts with
        | none => .error (.invalidPosts "create")
        | some [] => .error (.invalidPosts "create")
        | some ps =>
          let plan : TwitterPlan :=
            { plan_id := pid
              title := title.getD ""
              posts := ps
              post_statuses := List.replicate ps.length "draft"
              post_notes := List.replicate ps.length "" }
          .ok { plans := setPlanList s.plans pid plan, current_plan_id := some pid }

/-- The status/notes recomputation of `TwitterPlanningTool._update_plan`:
for each new post at index `i`, keep the old status and note when
`i < len(old_posts) and post == old_posts[i]` (expressed as
`oldPosts[i]? = some p`), otherwise reset to `"draft"` and `""`.  Reading
`old_statuses[i]`/`old_notes[i]` past the end would raise `IndexError` in
Python; aligned lists (the invariant of every reachable store) never hit it. -/
def mergeAux (oldPosts : List Post) (oldStatuses oldNotes : List String) :
    List Post → Nat → Except ToolErr (List String × List String)
  | [], _ => .ok ([], [])
  | p :: rest, i =>
    if oldPosts[i]? = some p then
      match oldStatuses[i]?, oldNotes[i]? with
      | some st, some nt =>
        match mergeAux oldPosts oldStatuses oldNotes rest (i + 1) with
        | .ok (sts, nts) => .ok (st :: sts, nt :: nts)
        | .error e => .error e
      | _, _ => .error .pyIndexError
    else
      match mergeAux oldPosts oldStatuses oldNotes rest (i + 1) with
      | .ok (sts, nts) => .ok ("draft" :: sts, "" :: nts)
      | .error e => .error e

/-- `TwitterPlanningTool._update_plan`.  `if title:` applies the new title
only when it is truthy; `if posts:` recomputes posts/statuses/notes only
when the posts argument is a non-empty list. -/
def updatePlan (s : PlanStore) (plan_id title : Option String)
    (posts : Option (List Post)) : Except ToolErr PlanStore :=
  if ¬ optTruthy plan_id then .error (.missingParam "plan_id" "update")
  else
    let pid := plan_id.getD ""
    match lookupPlan s.plans pid with
    | none => .error (.notFound pid)
    | some plan =>
      let plan₁ := if optTruthy title then { plan with title := title.getD "" } else plan
      match posts with
      | none => .ok (setPlan s pid plan₁)
      | some [] => .ok (setPlan s pid plan₁)
      | some ps =>
        match mergeAux plan.posts plan.post_statuses plan.post_notes ps 0 with
        | .error e => .error e
        | .ok (sts, nts) =>
          .ok (setPlan s pid
            { plan₁ with posts := ps, post_statuses := sts, post_notes := nts })

/-- The id-resolution prologue shared by `_get_plan` and `_mark_post`: a
falsy `plan_id` falls back to the active pointer, failing with the
no-active-plan error when that is also falsy. -/
def resolvePlanId (s : PlanStore) (plan_id : Option String) : Except ToolErr String :=
  if optTruthy plan_id then .ok (plan_id.getD "")
  else if optTruthy s.current_plan_id then .ok (s.current_plan_id.getD "")
  else .error .noActivePlan

/-- `TwitterPlanningTool._get_plan`: resolves the plan id, then looks it up.
The returned plan stands for its rendering. -/
def getPlan (s : PlanStore) (plan_id : Option String) : Except ToolErr TwitterPlan :=
  match resolvePlanId s plan_id with
  | .error e => .error e
  | .ok pid =>
    match lookupPlan s.plans pid with
    | none => .error (.notFound pid)
    | some plan => .ok plan

/-- `TwitterPlanningTool._set_active_plan`. -/
def setActivePlan (s : PlanStore) (plan_id : Option String) : Except ToolErr PlanStore :=
  if ¬ optTruthy plan_id then .error (.missingParam "plan_id" "set_active")
  else
    let pid := plan_id.getD ""
    match lookupPlan s.plans pid with
    | none => .error (.notFound pid)
    | some _ => .ok { s with current_plan_id := some pid }

/-- The two conditional writes at the end of `_mark_post`:
`if post_status: plan["post_statuses"][post_index] = post_status` and
`if post_notes: plan["post_notes"][post_index] = post_notes`. -/
def applyMark (plan : TwitterPlan) (i : Nat) (post_status post_notes : Option String) :
    TwitterPlan :=
  let plan₁ :=
    if optTruthy post_status then
      { plan with post_statuses := plan.post_statuses.set i (post_status.getD "") }
    else plan
  if optTruthy post_notes then
    { plan₁ with post_notes := plan₁.post_notes.set i (post_notes.getD "") }
  else plan₁

/-- `TwitterPlanningTool._mark_post`.  Resolves the plan id like `get`,
requires `post_index`, bounds-checks it against `posts`, validates a truthy
status against the enumeration, then applies the conditional writes.  A
write into a status/notes list shorter than `posts` would raise `IndexError`
in Python; the two `pyIndexError` guards model that (they fire before either
write, which is exact for every store whose lists are aligned). -/
def markPost (s : PlanStore) (plan_id : Option String) (post_index : Option Int)
    (post_status post_notes : Option String) : Except ToolErr PlanStore :=
  match resolvePlanId s plan_id with
  | .error e => .error e
  | .ok pid =>
    match lookupPlan s.plans pid with
    | none => .error (.notFound pid)
    | some plan =>
      match post_index with
      | none => .error .missingPostIndex
      | some idx =>
        if idx < 0 ∨ (plan.posts.length : Int) ≤ idx then .error (.invalidPostIndex idx)
        else if optTruthy post_status ∧ post_status.getD "" ∉ validStatuses then
          .error (.invalidPostStatus (post_status.getD ""))
        else if optTruthy post_status ∧ plan.post_statuses.length ≤ idx.toNat then
          .error .pyIndexError
        else if optTruthy post_notes ∧ plan.post_notes.length ≤ idx.toNat then
          .error .pyIndexError
        else .ok (setPlan s pid (applyMark plan idx.toNat post_status post_notes))

/-- `TwitterPlanningTool._delete_plan`: removes the plan and clears the
active pointer when it pointed at the deleted id. -/
def deletePlan (s : PlanStore) (plan_id : Option String) : Except ToolErr PlanStore :=
  if ¬ optTruthy plan_id then .error (.missingParam "plan_id" "delete")
  else
    let pid := plan_id.getD ""
    match lookupPlan s.plans pid with
    | none => .error (.notFound pid)
    | some _ =>
      .ok { plans := removePlanList s.plans pid
            current_plan_id :=
              if s.current_plan_id = some pid then none else s.current_plan_id }

end TwitterPlanningTool

/-- One call of `TwitterPlanningTool.execute`, by command.  `list` and `get`
read the store without mutating it. -/
inductive Cmd where
  | create (plan_id title : Option String) (posts : Option (List Post))
  | update (plan_id title : Option String) (posts : Option (List Post))
  | list
  | get (plan_id : Option String)
  | set_active (plan_id : Option String)
  | mark_post (plan_id : Option String) (post_index : Option Int)
      (post_status post_notes : Option String)
  | delete (plan_id : Option String)
deriving DecidableEq, Repr

/-- The store transition (or error) of one tool call. -/
def applyCmd (s : PlanStore) : Cmd → Except ToolErr PlanStore
  | .create pid t ps => TwitterPlanningTool.createPlan s pid t ps
  | .update pid t ps => TwitterPlanningTool.updatePlan s pid t ps
  | .list => .ok s
  | .get pid => (TwitterPlanningTool.getPlan s pid).map fun _ => s
  | .set_active pid => TwitterPlanningTool.setActivePlan s pid
  | .mark_post pid i st nt => TwitterPlanningTool.markPost s pid i st nt
  | .delete pid => TwitterPlanningTool.deletePlan s pid

/-- A failing tool call raises before mutating, so the caller keeps the old
store. -/
def execCmd (s : PlanStore) (c : Cmd) : PlanStore :=
  match applyCmd s c with
  | .ok s' => s'
  | .error _ => s

/-- The store reached from the empty store by a sequence of tool calls
(successful or failing). -/
def runCmds (cs : List Cmd) : PlanStore := cs.foldl execCmd emptyStore

/-- Index-aligned status/notes lists (`len(post_statuses) == len(posts) ==
len(post_notes)`). -/
def planConsistent (p : TwitterPlan) : Prop :=
  p.post_statuses.length = p.posts.length ∧ p.post_notes.length = p.posts.length

/-- Every stored plan has aligned lists. -/
def storeConsistent (s : PlanStore) : Prop :=
  ∀ pid p, lookupPlan s.plans pid = some p → planConsistent p

/-- Invariants of every store reachable through the tool: aligned lists,
truthy keys, no duplicate keys. -/
structure StoreInv (s : PlanStore) : Prop where
  cons : storeConsistent s
  keysNe : ∀ kv ∈ s.plans, kv.1 ≠ ""
  nodup : (s.plans.map Prod.fst).Nodup

namespace TwitterPlanningFlow

/-- `PostStatus.get_active_statuses()`: a post whose status is draft or
ready is pending work. -/
def isActive (st : String) : Bool := st == "draft" || st == "ready"

/-- The status read by the selection scan of `_get_current_post_info`:
`post_statuses[i]` when in range, defaulting to draft past the end. -/
def statusAt (sts : List String) (i : Nat) : String := sts.getD i "draft"

/-- The selection scan of `_get_current_post_info`: enumerate the posts and
return the first index whose status (defaulting to draft when the status
list is shorter) is active. -/
def firstActive : List Post → List String → Option Nat
  | [], _ => none
  | _ :: _, [] => some 0
  | _ :: ps, st :: sts =>
    if isActive st then some 0 else (firstActive ps sts).map (· + 1)

/-- A store operation awaited by the flow may raise for reasons outside the
store's own checks (the defensive pattern the flow guards against); the
injected fault, when present, models such an exception, raised before any
mutation takes place. -/
def injectFault (fault : Option ToolErr) (r : Except ToolErr PlanStore) :
    Except ToolErr PlanStore :=
  match fault with
  | some e => .error e
  | none => r

/-- The in-memory correction of the `except` branch inside
`_get_current_post_info`: overwrite index `i` when in range, otherwise pad
with draft up to `i` and append ready. -/
def fallbackMarkReady (sts : List String) (i : Nat) : List String :=
  if i < sts.length then sts.set i "ready"
  else sts ++ List.replicate (i - sts.length) "draft" ++ ["ready"]

/-- The in-memory correction of the `except` branch inside
`_mark_post_posted`: pad with draft while the list has length at most `i`,
then overwrite index `i` with posted. -/
def fallbackMarkPosted (sts : List String) (i : Nat) : List String :=
  (sts ++ List.replicate (i + 1 - sts.length) "draft").set i "posted"

/-- The mark-as-ready bookkeeping of `_get_current_post_info`: the
`mark_post` call is wrapped in try/except, and on failure the statuses list
of the cached plan is corrected directly; the `none` branch mirrors the fact
that the correction touches the plan dict fetched at entry. -/
def markPostReady (s : PlanStore) (pid : String) (i : Nat) (fault : Option ToolErr) :
    PlanStore :=
  match injectFault fault
      (TwitterPlanningTool.markPost s (some pid) (some (i : Int)) (some "ready") none) with
  | .ok s' => s'
  | .error _ =>
    match lookupPlan s.plans pid with
    | some plan =>
        setPlan s pid { plan with post_statuses := fallbackMarkReady plan.post_statuses i }
    | none => s

/-- `TwitterPlanningFlow._mark_post_posted`: no-op when no current index;
otherwise the `mark_post` call is wrapped in try/except, and on failure the
statuses list is corrected directly (guarded by `active_plan_id in plans`). -/
def markPostPosted (s : PlanStore) (pid : String) (cur : Option Nat)
    (fault : Option ToolErr) : PlanStore :=
  match cur with
  | none => s
  | some i =>
    match injectFault fault
        (TwitterPlanningTool.markPost s (some pid) (some (i : Int)) (some "posted") none) with
    | .ok s' => s'
    | .error _ =>
      match lookupPlan s.plans pid with
      | some plan =>
          setPlan s pid { plan with post_statuses := fallbackMarkPosted plan.post_statuses i }
      | none => s

/-- The mark-as-failed bookkeeping in the `except` branch of
`_execute_post`: the `mark_post` call is awaited directly, with no
surrounding try/except, so any error it raises propagates to the caller. -/
def markPostFailed (s : PlanStore) (pid : String) (i : Nat) (note : String)
    (fault : Option ToolErr) : Except ToolErr PlanStore :=
  injectFault fault
    (TwitterPlanningTool.markPost s (some pid) (some (i : Int)) (some "failed") (some note))

/-- `TwitterPlanningFlow._get_current_post_info`: give up when the plan id
is falsy or the plan is missing; otherwise scan for the first active index,
mark it ready (with the in-memory fallback) and return it.  Derivation of
the post type and copying of the post feed only the executor oracle. -/
def getCurrentPostInfo (s : PlanStore) (pid : String) (readyFault : Option ToolErr) :
    Option Nat × PlanStore :=
  if pid = "" then (none, s)
  else
    match lookupPlan s.plans pid with
    | none => (none, s)
    | some plan =>
      match firstActive plan.posts plan.post_statuses with
      | none => (none, s)
      | some i => (some i, markPostReady s pid i readyFault)

/-- The outcome of one `executor.run(post_prompt)` call: the returned text,
or the message of the exception it raised. -/
inductive ExecOutcome where
  | success (output : String)
  | failure (errText : String)
deriving DecidableEq, Repr

/-- The oracle for one loop iteration: the executor outcome, whether the
executor state is FINISHED after the run, and the faults (if any) injected
into the two bookkeeping store calls of the iteration. -/
structure ExecStep where
  outcome : ExecOutcome
  finished : Bool
  readyFault : Option ToolErr := none
  settleFault : Option ToolErr := none
deriving DecidableEq, Repr

/-- The oracle used when the executor-step list runs out. -/
def defaultStep : ExecStep := { outcome := .success "", finished := false }

/-- `TwitterPlanningFlow._finalize_plan`: the summary from the LLM when it
answers, else from the primary agent, else the generic completion notice.
The rendered plan text only feeds those oracles. -/
def finalizePlan (llm agent : Option String) : String :=
  match llm with
  | some resp => "Twitter campaign plan completed:\n\n" ++ resp
  | none =>
    match agent with
    | some summary => "Twitter campaign plan completed:\n\n" ++ summary
    | none => "Twitter campaign plan completed. Error generating summary."

/-- The `while True` loop of `TwitterPlanningFlow.execute`, with fuel for
termination.  Each iteration: select and mark-ready the current post;
finalize and stop when none is found; otherwise run the executor oracle.
On success, mark posted (with in-memory fallback), accumulate the output,
and stop if the executor state is FINISHED.  On executor failure, mark the
post failed — an error raised by that store call propagates to the outer
`except` of `execute`, which replaces the whole result with the failure
message — then accumulate the error line and apply the same FINISHED check. -/
def flowLoop (pid : String) (llm agent : Option String) :
    Nat → PlanStore → List ExecStep → String → String × PlanStore
  | 0, s, _, acc => (acc, s)
  | fuel + 1, s, steps, acc =>
    let step := steps.headD defaultStep
    match getCurrentPostInfo s pid step.readyFault with
    | (none, s₁) => (acc ++ finalizePlan llm agent, s₁)
    | (some i, s₁) =>
      match step.outcome with
      | .success out =>
        let s₂ := markPostPosted s₁ pid (some i) step.settleFault
        let acc₁ := acc ++ out ++ "\n"
        if step.finished then (acc₁, s₂)
        else flowLoop pid llm agent fuel s₂ steps.tail acc₁
      | .failure e =>
        match markPostFailed s₁ pid i ("Error: " ++ e) step.settleFault with
        | .error err => ("Execution failed: " ++ toolErrMsg err, s₁)
        | .ok s₂ =>
          let acc₁ := acc ++ "Error executing post " ++ toString i ++ ": " ++ e ++ "\n"
          if step.finished then (acc₁, s₂)
          else flowLoop pid llm agent fuel s₂ steps.tail acc₁

/-- `TwitterPlanningFlow.execute` for empty input text: `if input_text:` is
skipped, so no initial plan is drafted and the loop runs directly against
whatever is stored at the session's `active_plan_id`. -/
def execute (pid : String) (s : PlanStore) (steps : List TwitterPlanningFlow.ExecStep)
    (llm agent : Option String) (fuel : Nat) : String × PlanStore :=
  flowLoop pid llm agent fuel s steps ""

end TwitterPlanningFlow

/-- A text-only post fixture for the closed instances below. -/
def post0 : Post :=
  { content := some "c0", hashtags := some ["#launch"], image_prompt := none,
    scheduled_time := none }

/-- A media post fixture for the closed instances below. -/
def post1 : Post :=
  { content := some "c1", hashtags := none, image_prompt := some "img",
    scheduled_time := none }

/-- A store holding one single-post plan, reached by one create call. -/
def storeOne : PlanStore :=
  runCmds [.create (some "p1") (some "Campaign") (some [post0])]

/-- A store holding one two-post plan, reached by one create call. -/
def storeTwo : PlanStore :=
  runCmds [.create (some "p") (some "T") (some [post0, post1])]

/-! ### Association-list lemmas for the plan dict -/

theorem lookup_setPlanList_self (l : List (String × TwitterPlan)) (pid : String)
    (p : TwitterPlan) : lookupPlan (setPlanList l pid p) pid = some p := by
  induction l with
  | nil => simp [setPlanList, lookupPlan]
  | cons kv rest ih =>
    obtain ⟨k, v⟩ := kv
    by_cases h : k = pid <;> simp [setPlanList, lookupPlan, h, ih]

theorem lookup_setPlanList_ne (l : List (String × TwitterPlan)) (pid q : String)
    (p : TwitterPlan) (h : q ≠ pid) :
    lookupPlan (setPlanList l pid p) q = lookupPlan l q := by
  have hpq : ¬ pid = q := fun hc => h hc.symm
  induction l with
  | nil => simp [setPlanList, lookupPlan, hpq]
  | cons kv rest ih =>
    obtain ⟨k, v⟩ := kv
    by_cases hk : k = pid
    · have hkq : ¬ k = q := by rw [hk]; exact hpq
      simp [setPlanList, lookupPlan, hk, hpq, hkq]
    · simp [setPlanList, lookupPlan, hk, ih]

theorem mem_setPlanList (l : List (String × TwitterPlan)) (pid : String)
    (p : TwitterPlan) (kv : String × TwitterPlan) (h : kv ∈ setPlanList l pid p) :
    kv = (pid, p) ∨ kv ∈ l := by
  induction l with
  | nil => simpa [setPlanList] using h
  | cons kv' rest ih =>
    obtain ⟨k, v⟩ := kv'
    by_cases hk : k = pid
    · simp only [setPlanList, if_pos hk, List.mem_cons] at h
      rcases h with h | h
      · exact Or.inl h
      · exact Or.inr (List.mem_cons_of_mem _ h)
    · simp only [setPlanList, if_neg hk, List.mem_cons] at h
      rcases h with h | h
      · exact Or.inr (by simp [h])
      · rcases ih h with h' | h'
        · exact Or.inl h'
        · exact Or.inr (List.mem_cons_of_mem _ h')

theorem map_fst_setPlanList (l : List (String × TwitterPlan)) (pid : String)
    (p : TwitterPlan) :
    (setPlanList l pid p).map Prod.fst =
      if pid ∈ l.map Prod.fst then l.map Prod.fst else l.map Prod.fst ++ [pid] := by
  induction l with
  | nil => simp [setPlanList]
  | cons kv rest ih =>
    obtain ⟨k, v⟩ := kv
    by_cases hk : k = pid
    · subst hk
      simp [setPlanList]
    · have hne : ¬ pid = k := fun hc => hk hc.symm
      by_cases hm : pid ∈ rest.map Prod.fst <;>
        simp [setPlanList, hk, ih, hm, hne]

theorem removePlanList_sublist (l : List (String × TwitterPlan)) (pid : String) :
    List.Sublist (removePlanList l pid) l := by
  induction l with
  | nil => simp [removePlanList]
  | cons kv rest ih =>
    obtain ⟨k, v⟩ := kv
    by_cases hk : k = pid
    · simp only [removePlanList, if_pos hk]
      exact List.Sublist.cons (k, v) (List.Sublist.refl rest)
    · simpa [removePlanList, hk] using List.Sublist.cons₂ (k, v) ih

theorem lookup_mem (l : List (String × TwitterPlan)) (pid : String) (p : TwitterPlan)
    (h : lookupPlan l pid = some p) : (pid, p) ∈ l := by
  induction l with
  | nil => simp [lookupPlan] at h
  | cons kv rest ih =>
    obtain ⟨k, v⟩ := kv
    by_cases hk : k = pid
    · simp only [lookupPlan, if_pos hk, Option.some.injEq] at h
      simp [hk, h]
    · simp only [lookupPlan, if_neg hk] at h
      exact List.mem_cons_of_mem _ (ih h)

theorem lookup_eq_none_of_not_mem (l : List (String × TwitterPlan)) (pid : String)
    (h : pid ∉ l.map Prod.fst) : lookupPlan l pid = none := by
  induction l with
  | nil => simp [lookupPlan]
  | cons kv rest ih =>
    obtain ⟨k, v⟩ := kv
    simp only [List.map_cons, List.mem_cons] at h
    push_neg at h
    have hk : k ≠ pid := fun hc => h.1 hc.symm
    simp [lookupPlan, hk, ih h.2]

theorem mem_map_fst_of_lookup (l : List (String × TwitterPlan)) (pid : String)
    (p : TwitterPlan) (h : lookupPlan l pid = some p) : pid ∈ l.map Prod.fst := by
  have := lookup_mem l pid p h
  exact List.mem_map.mpr ⟨(pid, p), this, rfl⟩

theorem lookup_removePlanList_self (l : List (String × TwitterPlan)) (pid : String)
    (hnd : (l.map Prod.fst).Nodup) : lookupPlan (removePlanList l pid) pid = none := by
  induction l with
  | nil => simp [removePlanList, lookupPlan]
  | cons kv rest ih =>
    obtain ⟨k, v⟩ := kv
    simp only [List.map_cons, List.nodup_cons] at hnd
    by_cases hk : k = pid
    · subst hk
      simpa [removePlanList] using lookup_eq_none_of_not_mem rest k hnd.1
    · simp [removePlanList, hk, lookupPlan, ih hnd.2]

theorem lookup_removePlanList_ne (l : List (String × TwitterPlan)) (pid q : String)
    (h : q ≠ pid) : lookupPlan (removePlanList l pid) q = lookupPlan l q := by
  induction l with
  | nil => simp [removePlanList]
  | cons kv rest ih =>
    obtain ⟨k, v⟩ := kv
    by_cases hk : k = pid
    · have hpq : ¬ pid = q := fun hc => h hc.symm
      have hkq : ¬ k = q := by rw [hk]; exact hpq
      simp [removePlanList, hk, lookupPlan, hkq, hpq]
    · simp only [removePlanList, if_neg hk, lookupPlan]
      by_cases hq : k = q
      · simp [hq]
      · simp [hq, ih]

/-! ### Small helpers -/

theorem optTruthy_getD (a : Option String) (h : optTruthy a = true) : a.getD "" ≠ "" := by
  cases a with
  | none => simp [optTruthy] at h
  | some s =>
    simp only [optTruthy, bne_iff_ne, ne_eq] at h
    simpa using h

theorem optTruthy_some_iff (v : String) : optTruthy (some v) = true ↔ v ≠ "" := by
  simp [optTruthy]

theorem exists_lookup_of_mem (l : List (String × TwitterPlan)) (pid : String)
    (h : pid ∈ l.map Prod.fst) : ∃ p, lookupPlan l pid = some p := by
  induction l with
  | nil => simp at h
  | cons kv rest ih =>
    obtain ⟨k, v⟩ := kv
    by_cases hk : k = pid
    · exact ⟨v, by simp [lookupPlan, hk]⟩
    · simp only [List.map_cons, List.mem_cons] at h
      rcases h with h | h
      · exact absurd h.symm hk
      · obtain ⟨p, hp⟩ := ih h
        exact ⟨p, by simp [lookupPlan, hk, hp]⟩

/-! ### The update merge rule -/

theorem mergeAux_spec (oldPosts : List Post) (oldS oldN : List String)
    (hS : oldS.length = oldPosts.length) (hN : oldN.length = oldPosts.length) :
    ∀ (ps : List Post) (i : Nat), ∃ sts nts,
      TwitterPlanningTool.mergeAux oldPosts oldS oldN ps i = .ok (sts, nts) ∧
      sts.length = ps.length ∧ nts.length = ps.length ∧
      ∀ d, d < ps.length →
        sts[d]? = (if oldPosts[i + d]? = ps[d]? then oldS[i + d]? else some "draft") ∧
        nts[d]? = (if oldPosts[i + d]? = ps[d]? then oldN[i + d]? else some "") := by
  intro ps
  induction ps with
  | nil =>
    intro i
    exact ⟨[], [], rfl, rfl, rfl, by intro d hd; simp at hd⟩
  | cons p rest ih =>
    intro i
    obtain ⟨sts', nts', hmerge, hlen1, hlen2, hidx⟩ := ih (i + 1)
    by_cases hc : oldPosts[i]? = some p
    · have hiP : i < oldPosts.length := by
        by_contra hcon
        rw [List.getElem?_eq_none (by omega)] at hc
        exact Option.noConfusion hc
      have hiS : i < oldS.length := by omega
      have hiN : i < oldN.length := by omega
      obtain ⟨st0, hst0⟩ : ∃ st0, oldS[i]? = some st0 :=
        ⟨oldS.get ⟨i, hiS⟩, List.getElem?_eq_getElem hiS⟩
      obtain ⟨nt0, hnt0⟩ : ∃ nt0, oldN[i]? = some nt0 :=
        ⟨oldN.get ⟨i, hiN⟩, List.getElem?_eq_getElem hiN⟩
      refine ⟨st0 :: sts', nt0 :: nts', ?_, by simp [hlen1], by simp [hlen2], ?_⟩
      · simp only [TwitterPlanningTool.mergeAux, if_pos hc, hst0, hnt0, hmerge]
      · intro d hd
        cases d with
        | zero => simp [hc, hst0, hnt0]
        | succ d' =>
          have hd' : d' < rest.length := by simpa using hd
          have := hidx d' hd'
          have harith : i + (d' + 1) = i + 1 + d' := by omega
          simpa [harith] using this
    · refine ⟨"draft" :: sts', "" :: nts', ?_, by simp [hlen1], by simp [hlen2], ?_⟩
      · simp only [TwitterPlanningTool.mergeAux, if_neg hc, hmerge]
      · intro d hd
        cases d with
        | zero => simp [hc]
        | succ d' =>
          have hd' : d' < rest.length := by simpa using hd
          have := hidx d' hd'
          have harith : i + (d' + 1) = i + 1 + d' := by omega
          simpa [harith] using this

/-! ### The selection scan -/

theorem statusAt_nil (j : Nat) : TwitterPlanningFlow.statusAt [] j = "draft" := by
  simp [TwitterPlanningFlow.statusAt]

theorem statusAt_cons_zero (st : String) (sts : List String) :
    TwitterPlanningFlow.statusAt (st :: sts) 0 = st := rfl

theorem statusAt_cons_succ (st : String) (sts : List String) (j : Nat) :
    TwitterPlanningFlow.statusAt (st :: sts) (j + 1) = TwitterPlanningFlow.statusAt sts j := rfl

theorem isActive_draft : TwitterPlanningFlow.isActive "draft" = true := rfl

theorem firstActive_eq_some_iff (ps : List Post) (sts : List String) (m : Nat) :
    TwitterPlanningFlow.firstActive ps sts = some m ↔
      m < ps.length ∧ TwitterPlanningFlow.isActive (TwitterPlanningFlow.statusAt sts m) = true ∧
      ∀ j, j < m → TwitterPlanningFlow.isActive (TwitterPlanningFlow.statusAt sts j) = false := by
  induction ps generalizing sts m with
  | nil => simp [TwitterPlanningFlow.firstActive]
  | cons p rest ih =>
    cases sts with
    | nil =>
      simp only [TwitterPlanningFlow.firstActive]
      constructor
      · intro h
        obtain rfl : m = 0 := by simpa using h.symm
        exact ⟨by simp, by simp [statusAt_nil, isActive_draft], by intro j hj; omega⟩
      · rintro ⟨-, -, hall⟩
        cases m with
        | zero => rfl
        | succ m' => exact absurd (hall 0 (by omega)) (by simp [statusAt_nil, isActive_draft])
    | cons st sts' =>
      by_cases hst : TwitterPlanningFlow.isActive st = true
      · simp only [TwitterPlanningFlow.firstActive, if_pos hst]
        constructor
        · intro h
          obtain rfl : m = 0 := by simpa using h.symm
          exact ⟨by simp, by simpa [statusAt_cons_zero], by intro j hj; omega⟩
        · rintro ⟨-, -, hall⟩
          cases m with
          | zero => rfl
          | succ m' =>
            exact absurd (hall 0 (by omega)) (by simp [statusAt_cons_zero, hst])
      · simp only [TwitterPlanningFlow.firstActive, if_neg hst]
        cases m with
        | zero =>
          simp only [Option.map_eq_some']
          constructor
          · rintro ⟨m', -, hm'⟩
            omega
          · rintro ⟨-, hact, -⟩
            rw [statusAt_cons_zero] at hact
            exact absurd hact hst
        | succ m' =>
          have heq : (TwitterPlanningFlow.firstActive rest sts').map (· + 1) = some (m' + 1) ↔
              TwitterPlanningFlow.firstActive rest sts' = some m' := by
            simp only [Option.map_eq_some']
            constructor
            · rintro ⟨x, hx, hx1⟩
              obtain rfl : x = m' := by omega
              exact hx
            · intro h
              exact ⟨m', h, rfl⟩
          rw [heq, ih sts' m']
          constructor
          · rintro ⟨h1, h2, h3⟩
            refine ⟨by simpa using h1, by simpa [statusAt_cons_succ] using h2, ?_⟩
            intro j hj
            cases j with
            | zero => simpa [statusAt_cons_zero] using hst
            | succ j' => simpa [statusAt_cons_succ] using h3 j' (by omega)
          · rintro ⟨h1, h2, h3⟩
            refine ⟨by simpa using h1, by simpa [statusAt_cons_succ] using h2, ?_⟩
            intro j hj
            have := h3 (j + 1) (by omega)
            simpa [statusAt_cons_succ] using this

/-! ### Invariant preservation -/

theorem planConsistent_applyMark (plan : TwitterPlan) (i : Nat) (st nts : Option String)
    (h : planConsistent plan) :
    planConsistent (TwitterPlanningTool.applyMark plan i st nts) := by
  obtain ⟨h1, h2⟩ := h
  unfold TwitterPlanningTool.applyMark
  constructor <;> split <;> split <;> simp_all

theorem storeInv_emptyStore : StoreInv emptyStore := by
  refine ⟨?_, ?_, ?_⟩
  · intro pid p h
    simp [emptyStore, lookupPlan] at h
  · intro kv h
    simp [emptyStore] at h
  · simp [emptyStore]

theorem storeInv_setPlan_of_fresh (s : PlanStore) (pid : String) (p : TwitterPlan)
    (cur : Option String) (inv : StoreInv s) (hpid : pid ≠ "")
    (hfresh : lookupPlan s.plans pid = none) (hp : planConsistent p) :
    StoreInv { plans := setPlanList s.plans pid p, current_plan_id := cur } := by
  refine ⟨?_, ?_, ?_⟩
  · intro q q' hq
    by_cases hqp : q = pid
    · subst hqp
      rw [lookup_setPlanList_self] at hq
      obtain rfl : p = q' := by simpa using hq
      exact hp
    · rw [lookup_setPlanList_ne _ _ _ _ hqp] at hq
      exact inv.cons q q' hq
  · intro kv hkv
    rcases mem_setPlanList _ _ _ _ hkv with h | h
    · subst h
      exact hpid
    · exact inv.keysNe kv h
  · rw [map_fst_setPlanList]
    have hnm : pid ∉ s.plans.map Prod.fst := by
      intro hc
      obtain ⟨p', hp'⟩ := exists_lookup_of_mem _ _ hc
      rw [hfresh] at hp'
      exact Option.noConfusion hp'
    rw [if_neg hnm, List.nodup_append]
    exact ⟨inv.nodup, List.nodup_singleton pid, by
      intro x hx hx'
      obtain rfl : x = pid := by simpa using hx'
      exact hnm hx⟩

theorem storeInv_setPlan_of_present (s : PlanStore) (pid : String) (p p₀ : TwitterPlan)
    (cur : Option String) (inv : StoreInv s)
    (hpres : lookupPlan s.plans pid = some p₀) (hp : planConsistent p) :
    StoreInv { plans := setPlanList s.plans pid p, current_plan_id := cur } := by
  have hmem : pid ∈ s.plans.map Prod.fst := mem_map_fst_of_lookup _ _ _ hpres
  refine ⟨?_, ?_, ?_⟩
  · intro q q' hq
    by_cases hqp : q = pid
    · subst hqp
      rw [lookup_setPlanList_self] at hq
      obtain rfl : p = q' := by simpa using hq
      exact hp
    · rw [lookup_setPlanList_ne _ _ _ _ hqp] at hq
      exact inv.cons q q' hq
  · intro kv hkv
    rcases mem_setPlanList _ _ _ _ hkv with h | h
    · subst h
      exact inv.keysNe (pid, p₀) (lookup_mem _ _ _ hpres)
    · exact inv.keysNe kv h
  · rw [map_fst_setPlanList, if_pos hmem]
    exact inv.nodup

theorem storeInv_createPlan (s s' : PlanStore) (a b : Option String)
    (c : Option (List Post)) (inv : StoreInv s)
    (h : TwitterPlanningTool.createPlan s a b c = .ok s') : StoreInv s' := by
  unfold TwitterPlanningTool.createPlan at h
  by_cases hta : optTruthy a = true
  · rw [if_neg (not_not_intro hta)] at h
    cases hl : lookupPlan s.plans (a.getD "") with
    | some p => simp [hl] at h
    | none =>
      simp only [hl] at h
      by_cases htb : optTruthy b = true
      · rw [if_neg (not_not_intro htb)] at h
        cases c with
        | none => simp at h
        | some ps =>
          cases ps with
          | nil => simp at h
          | cons p rest =>
            rw [Except.ok.injEq] at h
            subst h
            exact storeInv_setPlan_of_fresh s (a.getD "") _ _ inv
              (optTruthy_getD a hta) hl (by constructor <;> simp)
      · rw [if_pos htb] at h
        simp at h
  · rw [if_pos hta] at h
    simp at h

theorem storeInv_updatePlan (s s' : PlanStore) (a b : Option String)
    (c : Option (List Post)) (inv : StoreInv s)
    (h : TwitterPlanningTool.updatePlan s a b c = .ok s') : StoreInv s' := by
  unfold TwitterPlanningTool.updatePlan at h
  by_cases hta : optTruthy a = true
  · rw [if_neg (not_not_intro hta)] at h
    cases hl : lookupPlan s.plans (a.getD "") with
    | none => simp [hl] at h
    | some plan =>
      simp only [hl] at h
      have hplan : planConsistent plan := inv.cons _ _ hl
      have hplan₁ : planConsistent
          (if optTruthy b then { plan with title := b.getD "" } else plan) := by
        obtain ⟨h1, h2⟩ := hplan
        constructor <;> split <;> simp_all
      cases c with
      | none =>
        rw [Except.ok.injEq] at h
        subst h
        exact storeInv_setPlan_of_present s _ _ plan _ inv hl hplan₁
      | some ps =>
        cases ps with
        | nil =>
          rw [Except.ok.injEq] at h
          subst h
          exact storeInv_setPlan_of_present s _ _ plan _ inv hl hplan₁
        | cons p rest =>
          obtain ⟨sts', nts', hok, hl1, hl2, -⟩ :=
            mergeAux_spec plan.posts plan.post_statuses plan.post_notes
              hplan.1 hplan.2 (p :: rest) 0
          simp only [hok, Except.ok.injEq] at h
          subst h
          exact storeInv_setPlan_of_present s _ _ plan _ inv hl ⟨hl1, hl2⟩
  · rw [if_pos hta] at h
    simp at h

theorem storeInv_setActivePlan (s s' : PlanStore) (a : Option String) (inv : StoreInv s)
    (h : TwitterPlanningTool.setActivePlan s a = .ok s') : StoreInv s' := by
  unfold TwitterPlanningTool.setActivePlan at h
  by_cases hta : optTruthy a = true
  · rw [if_neg (not_not_intro hta)] at h
    cases hl : lookupPlan s.plans (a.getD "") with
    | none => simp [hl] at h
    | some p =>
      simp only [hl, Except.ok.injEq] at h
      subst h
      exact ⟨inv.cons, inv.keysNe, inv.nodup⟩
  · rw [if_pos hta] at h
    simp at h

theorem storeInv_markPost (s s' : PlanStore) (a : Option String) (b : Option Int)
    (c d : Option String) (inv : StoreInv s)
    (h : TwitterPlanningTool.markPost s a b c d = .ok s') : StoreInv s' := by
  unfold TwitterPlanningTool.markPost at h
  cases hres : TwitterPlanningTool.resolvePlanId s a with
  | error e => rw [hres] at h; simp at h
  | ok pid =>
    rw [hres] at h
    cases hl : lookupPlan s.plans pid with
    | none => simp [hl] at h
    | some plan =>
      simp only [hl] at h
      cases b with
      | none => simp at h
      | some idx =>
        split at h
        · simp at h
        · split at h
          · simp at h
          · split at h
            · simp at h
            · split at h
              · simp at h
              · split at h
                · simp at h
                · rw [Except.ok.injEq] at h
                  subst h
                  exact storeInv_setPlan_of_present s _ _ plan _ inv hl
                    (planConsistent_applyMark plan _ c d (inv.cons _ _ hl))

theorem storeInv_deletePlan (s s' : PlanStore) (a : Option String) (inv : StoreInv s)
    (h : TwitterPlanningTool.deletePlan s a = .ok s') : StoreInv s' := by
  unfold TwitterPlanningTool.deletePlan at h
  by_cases hta : optTruthy a = true
  swap
  · rw [if_pos hta] at h
    simp at h
  · rw [if_neg (not_not_intro hta)] at h
    cases hl : lookupPlan s.plans (a.getD "") with
    | none => simp [hl] at h
    | some p =>
      simp only [hl, Except.ok.injEq] at h
      subst h
      refine ⟨?_, ?_, ?_⟩
      · intro q p hq
        by_cases hqp : q = a.getD ""
        · subst hqp
          rw [lookup_removePlanList_self _ _ inv.nodup] at hq
          exact Option.noConfusion hq
        · rw [lookup_removePlanList_ne _ _ _ hqp] at hq
          exact inv.cons q p hq
      · intro kv hkv
        exact inv.keysNe kv ((removePlanList_sublist s.plans _).mem hkv)
      · exact inv.nodup.sublist (List.Sublist.map Prod.fst (removePlanList_sublist s.plans _))

theorem storeInv_execCmd (s : PlanStore) (c : Cmd) (inv : StoreInv s) :
    StoreInv (execCmd s c) := by
  unfold execCmd
  cases hc : applyCmd s c with
  | error e => exact inv
  | ok s' =>
    cases c with
    | create a b ps => exact storeInv_createPlan s s' a b ps inv hc
    | update a b ps => exact storeInv_updatePlan s s' a b ps inv hc
    | list =>
      obtain rfl : s = s' := by simpa [applyCmd] using hc
      exact inv
    | get a =>
      simp only [applyCmd] at hc
      cases hg : TwitterPlanningTool.getPlan s a with
      | error e => rw [hg] at hc; simp [Except.map] at hc
      | ok p =>
        rw [hg] at hc
        simp only [Except.map, Except.ok.injEq] at hc
        subst hc
        exact inv
    | set_active a => exact storeInv_setActivePlan s s' a inv hc
    | mark_post a b st nt => exact storeInv_markPost s s' a b st nt inv hc
    | delete a => exact storeInv_deletePlan s s' a inv hc

theorem storeInv_foldl (cs : List Cmd) (s : PlanStore) (inv : StoreInv s) :
    StoreInv (cs.foldl execCmd s) := by
  induction cs generalizing s with
  | nil => exact inv
  | cons c rest ih => exact ih (execCmd s c) (storeInv_execCmd s c inv)

theorem storeInv_runCmds (cs : List Cmd) : StoreInv (runCmds cs) :=
  storeInv_foldl cs emptyStore storeInv_emptyStore

/-! ### Computation lemmas for store calls made by the flow -/

theorem resolvePlanId_truthy (s : PlanStore) (pid : String) (h : pid ≠ "") :
    TwitterPlanningTool.resolvePlanId s (some pid) = .ok pid := by
  simp [TwitterPlanningTool.resolvePlanId, optTruthy, h]

theorem markPost_ok (s : PlanStore) (pid : String) (plan : TwitterPlan) (idx : Nat)
    (st nts : Option String) (hpid : pid ≠ "")
    (hplan : lookupPlan s.plans pid = some plan)
    (hidx : idx < plan.posts.length)
    (hst : optTruthy st = false ∨ st.getD "" ∈ validStatuses)
    (hstLen : optTruthy st = true → idx < plan.post_statuses.length)
    (hntLen : optTruthy nts = true → idx < plan.post_notes.length) :
    TwitterPlanningTool.markPost s (some pid) (some (idx : Int)) st nts =
      .ok (setPlan s pid (TwitterPlanningTool.applyMark plan idx st nts)) := by
  have hc1 : ¬((idx : Int) < 0 ∨ (plan.posts.length : Int) ≤ (idx : Int)) := by
    omega
  have hc2 : ¬(optTruthy st = true ∧ st.getD "" ∉ validStatuses) := by
    rintro ⟨h1, h2⟩
    rcases hst with hf | hmem
    · rw [hf] at h1
      exact Bool.noConfusion h1
    · exact h2 hmem
  have hc3 : ¬(optTruthy st = true ∧ plan.post_statuses.length ≤ ((idx : Int)).toNat) := by
    rintro ⟨h1, h2⟩
    have := hstLen h1
    omega
  have hc4 : ¬(optTruthy nts = true ∧ plan.post_notes.length ≤ ((idx : Int)).toNat) := by
    rintro ⟨h1, h2⟩
    have := hntLen h1
    omega
  simp only [TwitterPlanningTool.markPost, resolvePlanId_truthy s pid hpid, hplan,
    if_neg hc1, if_neg hc2, if_neg hc3, if_neg hc4]
  simp

theorem applyMark_status (plan : TwitterPlan) (i : Nat) (v : String) (hv : v ≠ "") :
    TwitterPlanningTool.applyMark plan i (some v) none =
      { plan with post_statuses := plan.post_statuses.set i v } := by
  simp [TwitterPlanningTool.applyMark, optTruthy, hv]

theorem applyMark_status_notes (plan : TwitterPlan) (i : Nat) (v w : String)
    (hv : v ≠ "") (hw : w ≠ "") :
    TwitterPlanningTool.applyMark plan i (some v) (some w) =
      { plan with post_statuses := plan.post_statuses.set i v
                  post_notes := plan.post_notes.set i w } := by
  simp [TwitterPlanningTool.applyMark, optTruthy, hv, hw]

theorem markPostReady_ok (s : PlanStore) (pid : String) (plan : TwitterPlan) (i : Nat)
    (hpid : pid ≠ "") (hplan : lookupPlan s.plans pid = some plan)
    (hidx : i < plan.posts.length) (hcons : planConsistent plan) :
    TwitterPlanningFlow.markPostReady s pid i none =
      setPlan s pid { plan with post_statuses := plan.post_statuses.set i "ready" } := by
  simp only [TwitterPlanningFlow.markPostReady, TwitterPlanningFlow.injectFault]
  rw [markPost_ok s pid plan i (some "ready") none hpid hplan hidx
      (Or.inr (by simp [validStatuses]))
      (fun _ => by obtain ⟨h1, h2⟩ := hcons; omega)
      (fun hc => by simp [optTruthy] at hc)]
  rw [applyMark_status plan i "ready" (by simp)]

theorem markPostReady_fault (s : PlanStore) (pid : String) (plan : TwitterPlan) (i : Nat)
    (e : ToolErr) (hplan : lookupPlan s.plans pid = some plan) :
    TwitterPlanningFlow.markPostReady s pid i (some e) =
      setPlan s pid
        { plan with post_statuses := TwitterPlanningFlow.fallbackMarkReady plan.post_statuses i } := by
  simp [TwitterPlanningFlow.markPostReady, TwitterPlanningFlow.injectFault, hplan]

theorem markPostPosted_ok (s : PlanStore) (pid : String) (plan : TwitterPlan) (i : Nat)
    (hpid : pid ≠ "") (hplan : lookupPlan s.plans pid = some plan)
    (hidx : i < plan.posts.length) (hcons : planConsistent plan) :
    TwitterPlanningFlow.markPostPosted s pid (some i) none =
      setPlan s pid { plan with post_statuses := plan.post_statuses.set i "posted" } := by
  simp only [TwitterPlanningFlow.markPostPosted, TwitterPlanningFlow.injectFault]
  rw [markPost_ok s pid plan i (some "posted") none hpid hplan hidx
      (Or.inr (by simp [validStatuses]))
      (fun _ => by obtain ⟨h1, h2⟩ := hcons; omega)
      (fun hc => by simp [optTruthy] at hc)]
  rw [applyMark_status plan i "posted" (by simp)]

theorem markPostPosted_fault (s : PlanStore) (pid : String) (plan : TwitterPlan) (i : Nat)
    (e : ToolErr) (hplan : lookupPlan s.plans pid = some plan) :
    TwitterPlanningFlow.markPostPosted s pid (some i) (some e) =
      setPlan s pid
        { plan with post_statuses := TwitterPlanningFlow.fallbackMarkPosted plan.post_statuses i } := by
  simp [TwitterPlanningFlow.markPostPosted, TwitterPlanningFlow.injectFault, hplan]

theorem markPostFailed_ok (s : PlanStore) (pid : String) (plan : TwitterPlan) (i : Nat)
    (note : String) (hpid : pid ≠ "") (hplan : lookupPlan s.plans pid = some plan)
    (hidx : i < plan.posts.length) (hcons : planConsistent plan) (hnote : note ≠ "") :
    TwitterPlanningFlow.markPostFailed s pid i note none =
      .ok (setPlan s pid
        { plan with post_statuses := plan.post_statuses.set i "failed"
                    post_notes := plan.post_notes.set i note }) := by
  simp only [TwitterPlanningFlow.markPostFailed, TwitterPlanningFlow.injectFault]
  rw [markPost_ok s pid plan i (some "failed") (some note) hpid hplan hidx
      (Or.inr (by simp [validStatuses]))
      (fun _ => by obtain ⟨h1, h2⟩ := hcons; omega)
      (fun _ => by obtain ⟨h1, h2⟩ := hcons; omega)]
  rw [applyMark_status_notes plan i "failed" note (by simp) hnote]

theorem markPostFailed_fault (s : PlanStore) (pid : String) (i : Nat) (note : String)
    (e : ToolErr) :
    TwitterPlanningFlow.markPostFailed s pid i note (some e) = .error e := rfl

theorem getCurrentPostInfo_selects (s : PlanStore) (pid : String) (plan : TwitterPlan)
    (i : Nat) (hpid : pid ≠ "") (hplan : lookupPlan s.plans pid = some plan)
    (hcons : planConsistent plan)
    (hsel : TwitterPlanningFlow.firstActive plan.posts plan.post_statuses = some i) :
    TwitterPlanningFlow.getCurrentPostInfo s pid none =
      (some i, setPlan s pid { plan with post_statuses := plan.post_statuses.set i "ready" }) := by
  have hidx : i < plan.posts.length := ((firstActive_eq_some_iff _ _ _).mp hsel).1
  simp only [TwitterPlanningFlow.getCurrentPostInfo, if_neg hpid, hplan, hsel]
  rw [markPostReady_ok s pid plan i hpid hplan hidx hcons]

theorem getCurrentPostInfo_missing (s : PlanStore) (pid : String) (fault : Option ToolErr)
    (hplan : lookupPlan s.plans pid = none) :
    TwitterPlanningFlow.getCurrentPostInfo s pid fault = (none, s) := by
  by_cases hpid : pid = ""
  · simp [TwitterPlanningFlow.getCurrentPostInfo, hpid]
  · simp [TwitterPlanningFlow.getCurrentPostInfo, hpid, hplan]

theorem getCurrentPostInfo_exhausted (s : PlanStore) (pid : String)
    (fault : Option ToolErr) (plan : TwitterPlan)
    (hplan : lookupPlan s.plans pid = some plan)
    (hsel : TwitterPlanningFlow.firstActive plan.posts plan.post_statuses = none) :
    TwitterPlanningFlow.getCurrentPostInfo s pid fault = (none, s) := by
  by_cases hpid : pid = ""
  · simp [TwitterPlanningFlow.getCurrentPostInfo, hpid]
  · simp [TwitterPlanningFlow.getCurrentPostInfo, hpid, hplan, hsel]

theorem setPlanList_setPlanList (l : List (String × TwitterPlan)) (pid : String)
    (p₁ p₂ : TwitterPlan) :
    setPlanList (setPlanList l pid p₁) pid p₂ = setPlanList l pid p₂ := by
  induction l with
  | nil => simp [setPlanList]
  | cons kv rest ih =>
    obtain ⟨k, v⟩ := kv
    by_cases hk : k = pid
    · simp [setPlanList, hk]
    · simp [setPlanList, hk, ih]

theorem setPlan_setPlan (s : PlanStore) (pid : String) (p₁ p₂ : TwitterPlan) :
    setPlan (setPlan s pid p₁) pid p₂ = setPlan s pid p₂ := by
  simp [setPlan, setPlanList_setPlanList]

theorem statusAt_set_ne (sts : List String) (j k : Nat) (v : String) (h : k ≠ j) :
    TwitterPlanningFlow.statusAt (sts.set k v) j = TwitterPlanningFlow.statusAt sts j := by
  simp [TwitterPlanningFlow.statusAt, List.getD_eq_getElem?_getD, List.getElem?_set_ne h]

theorem statusAt_set_self (sts : List String) (k : Nat) (v : String) (h : k < sts.length) :
    TwitterPlanningFlow.statusAt (sts.set k v) k = v := by
  simp [TwitterPlanningFlow.statusAt, List.getD_eq_getElem?_getD, List.getElem?_set_self, h]

/-! ### Claims about the plan store -/

/-- Claim C6: for every plan in the store, `len(post_statuses) == len(posts)
== len(post_notes)` holds after every store operation, for every sequence of
successful or failing operations starting from the empty store. -/
theorem c6_lengths_invariant (cs : List Cmd) : storeConsistent (runCmds cs) :=
  (storeInv_runCmds cs).cons

/-- Claim C5: in every reachable store state, `create` with a plan id that is
already present fails with the already-exists error regardless of the other
arguments, and the failing call leaves the store (the existing plan and the
active pointer) unmodified. -/
theorem c5_create_duplicate_rejected (cs : List Cmd) (pid : String) (plan : TwitterPlan)
    (title : Option String) (posts : Option (List Post))
    (hmem : lookupPlan (runCmds cs).plans pid = some plan) :
    TwitterPlanningTool.createPlan (runCmds cs) (some pid) title posts =
      .error (.alreadyExists pid) ∧
    execCmd (runCmds cs) (.create (some pid) title posts) = runCmds cs := by
  have inv := storeInv_runCmds cs
  have hpid : pid ≠ "" := inv.keysNe (pid, plan) (lookup_mem _ _ _ hmem)
  have hcreate : TwitterPlanningTool.createPlan (runCmds cs) (some pid) title posts =
      .error (.alreadyExists pid) := by
    unfold TwitterPlanningTool.createPlan
    rw [if_neg (not_not_intro ((optTruthy_some_iff pid).mpr hpid))]
    simp only [Option.getD_some, hmem]
  exact ⟨hcreate, by simp [execCmd, applyCmd, hcreate]⟩

/-- Witness for C5 at a concrete reachable store. -/
theorem c5_create_duplicate_rejected_witness :
    TwitterPlanningTool.createPlan storeOne (some "p1") (some "Other") none =
      .error (.alreadyExists "p1") ∧
    execCmd storeOne (.create (some "p1") (some "Other") none) = storeOne :=
  c5_create_duplicate_rejected [.create (some "p1") (some "Campaign") (some [post0])]
    "p1"
    { plan_id := "p1", title := "Campaign", posts := [post0],
      post_statuses := ["draft"], post_notes := [""] }
    (some "Other") none (by decide)

/-- Claim C8: deleting the plan the active pointer names removes it and
clears the pointer, after which `get` with no id fails with the
no-active-plan error; deleting a non-active plan leaves the pointer as it
was (the conclusion keeps the pointer exactly when it differs from the
deleted id). -/
theorem c8_delete_clears_active (cs : List Cmd) (pid : String) (plan : TwitterPlan)
    (hmem : lookupPlan (runCmds cs).plans pid = some plan) :
    TwitterPlanningTool.deletePlan (runCmds cs) (some pid) =
      .ok { plans := removePlanList (runCmds cs).plans pid
            current_plan_id :=
              if (runCmds cs).current_plan_id = some pid then none
              else (runCmds cs).current_plan_id } ∧
    lookupPlan (removePlanList (runCmds cs).plans pid) pid = none ∧
    ((runCmds cs).current_plan_id = some pid →
      TwitterPlanningTool.getPlan
        { plans := removePlanList (runCmds cs).plans pid, current_plan_id := none } none =
        .error .noActivePlan) := by
  have inv := storeInv_runCmds cs
  have hpid : pid ≠ "" := inv.keysNe (pid, plan) (lookup_mem _ _ _ hmem)
  refine ⟨?_, ?_, ?_⟩
  · unfold TwitterPlanningTool.deletePlan
    rw [if_neg (not_not_intro ((optTruthy_some_iff pid).mpr hpid))]
    simp only [Option.getD_some, hmem]
  · exact lookup_removePlanList_self _ _ inv.nodup
  · intro hact
    simp [TwitterPlanningTool.getPlan, TwitterPlanningTool.resolvePlanId, optTruthy]

/-- Witness for C8: deleting the active single plan of a concrete store. -/
theorem c8_delete_clears_active_witness :
    TwitterPlanningTool.deletePlan storeOne (some "p1") =
      .ok { plans := removePlanList storeOne.plans "p1"
            current_plan_id :=
              if storeOne.current_plan_id = some "p1" then none
              else storeOne.current_plan_id } ∧
    lookupPlan (removePlanList storeOne.plans "p1") "p1" = none ∧
    (storeOne.current_plan_id = some "p1" →
      TwitterPlanningTool.getPlan
        { plans := removePlanList storeOne.plans "p1", current_plan_id := none } none =
        .error .noActivePlan) :=
  c8_delete_clears_active [.create (some "p1") (some "Campaign") (some [post0])]
    "p1"
    { plan_id := "p1", title := "Campaign", posts := [post0],
      post_statuses := ["draft"], post_notes := [""] }
    (by decide)

/-- Claim C9 counterexample: `update` with the empty string as the title
argument does not replace the stored title — the plan is left unchanged, its
title still the non-empty original — refuting the claim that a given title
replaces the stored one for every value including the empty string. -/
theorem c9_empty_title_not_applied :
    TwitterPlanningTool.updatePlan storeOne (some "p1") (some "") none = .ok storeOne ∧
    (lookupPlan storeOne.plans "p1").map TwitterPlan.title = some "Campaign" := by
  constructor
  · rfl
  · rfl

/-- Claim C9 (amended): on `update` of an existing plan with a title
argument given, the stored title is replaced exactly when the given title is
non-empty (Python-truthy); an empty-string title leaves the stored title
unchanged. -/
theorem c9_title_replaced_iff_truthy (s : PlanStore) (pid : String) (plan : TwitterPlan)
    (t : String) (hpid : pid ≠ "") (hplan : lookupPlan s.plans pid = some plan) :
    TwitterPlanningTool.updatePlan s (some pid) (some t) none =
      .ok (setPlan s pid (if t = "" then plan else { plan with title := t })) := by
  unfold TwitterPlanningTool.updatePlan
  rw [if_neg (not_not_intro ((optTruthy_some_iff pid).mpr hpid))]
  simp only [Option.getD_some, hplan]
  by_cases ht : t = ""
  · simp [optTruthy, ht]
  · simp [optTruthy, ht]

/-- Witness for the amended C9 at a concrete store and a non-empty title. -/
theorem c9_title_replaced_iff_truthy_witness :
    TwitterPlanningTool.updatePlan storeOne (some "p1") (some "New") none =
      .ok (setPlan storeOne "p1"
        (if "New" = "" then
          { plan_id := "p1", title := "Campaign", posts := [post0],
            post_statuses := ["draft"], post_notes := [""] }
         else
          { plan_id := "p1", title := "New", posts := [post0],
            post_statuses := ["draft"], post_notes := [""] })) :=
  c9_title_replaced_iff_truthy storeOne "p1"
    { plan_id := "p1", title := "Campaign", posts := [post0],
      post_statuses := ["draft"], post_notes := [""] }
    "New" (by decide) (by decide)

/-- Claim C10: for an existing plan and a valid index, `mark_post` with an
empty-string notes argument leaves the stored notes untouched (the result
keeps the plan's `post_notes` field), an absent status argument leaves the
statuses untouched, and no `mark_post` call can turn the stored note at the
index into the empty string unless it already was empty. -/
theorem c10_mark_post_frame (s : PlanStore) (pid : String) (plan : TwitterPlan)
    (idx : Nat) (st : Option String)
    (hpid : pid ≠ "") (hplan : lookupPlan s.plans pid = some plan)
    (hcons : planConsistent plan) (hidx : idx < plan.posts.length)
    (hst : optTruthy st = false ∨ st.getD "" ∈ validStatuses) :
    (TwitterPlanningTool.markPost s (some pid) (some (idx : Int)) st (some "") =
      .ok (setPlan s pid
        (if optTruthy st then
          { plan with post_statuses := plan.post_statuses.set idx (st.getD "") }
         else plan))) ∧
    (∀ nts : Option String,
      TwitterPlanningTool.markPost s (some pid) (some (idx : Int)) none nts =
        .ok (setPlan s pid
          (if optTruthy nts then
            { plan with post_notes := plan.post_notes.set idx (nts.getD "") }
           else plan))) ∧
    (∀ (nts : Option String) (s' : PlanStore) (plan' : TwitterPlan),
      TwitterPlanningTool.markPost s (some pid) (some (idx : Int)) st nts = .ok s' →
      lookupPlan s'.plans pid = some plan' →
      plan'.post_notes[idx]? = some "" → plan.post_notes[idx]? = some "") := by
  have hstLen : optTruthy st = true → idx < plan.post_statuses.length := fun _ => by
    obtain ⟨h1, h2⟩ := hcons
    omega
  have hntLen' : idx < plan.post_notes.length := by
    obtain ⟨h1, h2⟩ := hcons
    omega
  refine ⟨?_, ?_, ?_⟩
  · rw [markPost_ok s pid plan idx st (some "") hpid hplan hidx hst hstLen
        (fun hc => by simp [optTruthy] at hc)]
    have hm : TwitterPlanningTool.applyMark plan idx st (some "") =
        (if optTruthy st = true then
          { plan with post_statuses := plan.post_statuses.set idx (st.getD "") }
         else plan) := by
      unfold TwitterPlanningTool.applyMark
      rw [if_neg (by decide : ¬ optTruthy (some "") = true)]
    rw [hm]
  · intro nts
    rw [markPost_ok s pid plan idx none nts hpid hplan hidx (Or.inl rfl)
        (fun hc => by simp [optTruthy] at hc) (fun _ => hntLen')]
    have hm : TwitterPlanningTool.applyMark plan idx none nts =
        (if optTruthy nts = true then
          { plan with post_notes := plan.post_notes.set idx (nts.getD "") }
         else plan) := by
      unfold TwitterPlanningTool.applyMark
      rw [if_neg (by decide : ¬ optTruthy none = true)]
    rw [hm]
  · intro nts s' plan' hok hlook hnew
    rw [markPost_ok s pid plan idx st nts hpid hplan hidx hst hstLen
        (fun _ => hntLen')] at hok
    obtain rfl : setPlan s pid (TwitterPlanningTool.applyMark plan idx st nts) = s' := by
      simpa using hok
    rw [show (setPlan s pid (TwitterPlanningTool.applyMark plan idx st nts)).plans =
          setPlanList s.plans pid (TwitterPlanningTool.applyMark plan idx st nts) from rfl,
      lookup_setPlanList_self] at hlook
    obtain rfl : TwitterPlanningTool.applyMark plan idx st nts = plan' := by
      simpa using hlook
    by_cases hnts : optTruthy nts = true
    · have hv : (TwitterPlanningTool.applyMark plan idx st nts).post_notes[idx]? =
          some (nts.getD "") := by
        unfold TwitterPlanningTool.applyMark
        rw [if_pos hnts]
        split <;> simp [List.getElem?_set_self, hntLen']
      rw [hv] at hnew
      have : nts.getD "" = "" := by simpa using hnew
      exact absurd this (optTruthy_getD nts hnts)
    · have hv : (TwitterPlanningTool.applyMark plan idx st nts).post_notes =
          plan.post_notes := by
        unfold TwitterPlanningTool.applyMark
        rw [if_neg (by simp [hnts])]
        split <;> rfl
      rw [hv] at hnew
      exact hnew

/-- Witness for C10: marking post 0 of a concrete plan posted with empty
notes keeps the empty note; marking with notes only keeps the status. -/
theorem c10_mark_post_frame_witness :
    TwitterPlanningTool.markPost storeOne (some "p1") (some ((0 : Nat) : Int))
        (some "posted") (some "") =
      .ok (setPlan storeOne "p1"
        { plan_id := "p1", title := "Campaign", posts := [post0],
          post_statuses := ["posted"], post_notes := [""] }) ∧
    TwitterPlanningTool.markPost storeOne (some "p1") (some ((0 : Nat) : Int))
        none (some "note") =
      .ok (setPlan storeOne "p1"
        { plan_id := "p1", title := "Campaign", posts := [post0],
          post_statuses := ["draft"], post_notes := ["note"] }) := by
  have h := c10_mark_post_frame storeOne "p1"
    { plan_id := "p1", title := "Campaign", posts := [post0],
      post_statuses := ["draft"], post_notes := [""] }
    0 (some "posted") (by decide) (by decide) ⟨rfl, rfl⟩ (by decide)
    (Or.inr (by decide))
  exact ⟨h.1, h.2.1 (some "note")⟩

/-- Claim C1: updating an existing (length-consistent) plan with a new
non-empty posts list keeps the status and note at index `i` exactly when `i`
indexes the old posts list and the new post there equals the old one
structurally (`plan.posts[i]? = ps[i]?`), and resets every other index of
the new list to draft status and an empty note. -/
theorem c1_update_preserves_iff_identical (s : PlanStore) (pid : String)
    (plan : TwitterPlan) (title : Option String) (ps : List Post)
    (hpid : pid ≠ "") (hplan : lookupPlan s.plans pid = some plan)
    (hcons : planConsistent plan) (hps : ps ≠ []) :
    ∃ plan', TwitterPlanningTool.updatePlan s (some pid) title (some ps) =
        .ok (setPlan s pid plan') ∧
      plan'.posts = ps ∧
      plan'.post_statuses.length = ps.length ∧
      plan'.post_notes.length = ps.length ∧
      ∀ i, i < ps.length →
        plan'.post_statuses[i]? =
          (if plan.posts[i]? = ps[i]? then plan.post_statuses[i]? else some "draft") ∧
        plan'.post_notes[i]? =
          (if plan.posts[i]? = ps[i]? then plan.post_notes[i]? else some "") := by
  obtain ⟨p, rest, rfl⟩ : ∃ p rest, ps = p :: rest := by
    cases ps with
    | nil => exact absurd rfl hps
    | cons p rest => exact ⟨p, rest, rfl⟩
  obtain ⟨sts, nts, hok, hl1, hl2, hidx⟩ :=
    mergeAux_spec plan.posts plan.post_statuses plan.post_notes hcons.1 hcons.2
      (p :: rest) 0
  refine ⟨{ (if optTruthy title then { plan with title := title.getD "" } else plan) with
            posts := p :: rest, post_statuses := sts, post_notes := nts }, ?_, ?_, ?_, ?_, ?_⟩
  · unfold TwitterPlanningTool.updatePlan
    rw [if_neg (not_not_intro ((optTruthy_some_iff pid).mpr hpid))]
    simp only [Option.getD_some, hplan, hok]
  · rfl
  · exact hl1
  · exact hl2
  · intro i hi
    have := hidx i hi
    simpa using this

/-- Witness for C1: updating a concrete two-post plan with the first post
unchanged and the second replaced. -/
theorem c1_update_preserves_iff_identical_witness :
    ∃ plan', TwitterPlanningTool.updatePlan storeTwo (some "p") none
        (some [post0, { post1 with content := some "changed" }]) =
        .ok (setPlan storeTwo "p" plan') ∧
      plan'.posts = [post0, { post1 with content := some "changed" }] ∧
      plan'.post_statuses.length = [post0, { post1 with content := some "changed" }].length ∧
      plan'.post_notes.length = [post0, { post1 with content := some "changed" }].length ∧
      ∀ i, i < [post0, { post1 with content := some "changed" }].length →
        plan'.post_statuses[i]? =
          (if [post0, post1][i]? = [post0, { post1 with content := some "changed" }][i]? then
            ["draft", "draft"][i]? else some "draft") ∧
        plan'.post_notes[i]? =
          (if [post0, post1][i]? = [post0, { post1 with content := some "changed" }][i]? then
            ["", ""][i]? else some "") :=
  c1_update_preserves_iff_identical storeTwo "p"
    { plan_id := "p", title := "T", posts := [post0, post1],
      post_statuses := ["draft", "draft"], post_notes := ["", ""] }
    none [post0, { post1 with content := some "changed" }]
    (by decide) (by decide) ⟨rfl, rfl⟩ (by simp)

/-! ### Claims about the execution loop -/

/-- Claim C4 counterexample: `execute("")` (the empty-input path) with no
plan stored at the target id synthesizes nothing — the run immediately
finalizes over the missing plan, returning only the finalization text, and
the resulting store still has no plan at the id — refuting the claim that a
one-item default plan is synthesized and completed. -/
theorem c4_empty_input_missing_plan_no_synthesis :
    TwitterPlanningFlow.execute "plan-1" emptyStore [] (some "summary") none 3 =
      ("Twitter campaign plan completed:\n\nsummary", emptyStore) ∧
    lookupPlan
      (TwitterPlanningFlow.execute "plan-1" emptyStore [] (some "summary") none 3).2.plans
      "plan-1" = none := by
  constructor
  · rfl
  · rfl

/-- Claim C4 (amended): `execute("")` when no plan exists at the session's
target plan id creates no plan at all: the first selection finds no plan,
the loop finalizes at once, the result is exactly the finalization summary,
and the store is returned unchanged (so the id is still unbound). -/
theorem c4_missing_plan_finalizes_unchanged (s : PlanStore) (pid : String)
    (steps : List TwitterPlanningFlow.ExecStep) (llm agent : Option String) (n : Nat)
    (h : lookupPlan s.plans pid = none) :
    TwitterPlanningFlow.execute pid s steps llm agent (n + 1) =
      (TwitterPlanningFlow.finalizePlan llm agent, s) := by
  unfold TwitterPlanningFlow.execute
  simp only [TwitterPlanningFlow.flowLoop,
    getCurrentPostInfo_missing s pid (steps.headD TwitterPlanningFlow.defaultStep).readyFault h,
    String.empty_append]

/-- Witness for the amended C4 on a concrete empty store. -/
theorem c4_missing_plan_finalizes_unchanged_witness :
    TwitterPlanningFlow.execute "plan-1" emptyStore
        [{ outcome := .success "x", finished := false }] (some "S") none 4 =
      (TwitterPlanningFlow.finalizePlan (some "S") none, emptyStore) :=
  c4_missing_plan_finalizes_unchanged emptyStore "plan-1"
    [{ outcome := .success "x", finished := false }] (some "S") none 3 (by decide)

/-- Claim C3 counterexample: with a two-post plan (both active) and an
executor that succeeds on post 0 and reports FINISHED, the loop stops
immediately — post 1 stays draft, so an active item remains and the next
scan would select it — but the flow returns just the accumulated executor
output; the finalization text is longer than the whole result, so no
summary is part of it, refuting the transition-to-Finalizing half of the
claim. -/
theorem c3_early_finish_returns_without_finalize :
    TwitterPlanningFlow.execute "p" storeTwo
        [{ outcome := .success "done0", finished := true }] (some "summary") none 5 =
      ("done0\n",
       { plans := [("p", { plan_id := "p", title := "T", posts := [post0, post1],
                           post_statuses := ["posted", "draft"], post_notes := ["", ""] })],
         current_plan_id := some "p" }) ∧
    TwitterPlanningFlow.firstActive [post0, post1] ["posted", "draft"] = some 1 ∧
    ("done0\n" : String).length <
      (TwitterPlanningFlow.finalizePlan (some "summary") none).length := by
  refine ⟨?_, ?_, ?_⟩
  · rfl
  · rfl
  · decide

/-- Claim C3 (amended): when the executor reports FINISHED after
successfully running the selected post, the loop stops at once — even if
active items remain, only the selected index is touched (marked ready, then
posted) — and the flow returns the accumulated output with no finalization
appended. -/
theorem c3_finished_stops_loop (s : PlanStore) (pid : String) (plan : TwitterPlan)
    (out : String) (rest : List TwitterPlanningFlow.ExecStep) (llm agent : Option String) (i n : Nat)
    (hpid : pid ≠ "") (hplan : lookupPlan s.plans pid = some plan)
    (hcons : planConsistent plan)
    (hsel : TwitterPlanningFlow.firstActive plan.posts plan.post_statuses = some i) :
    TwitterPlanningFlow.execute pid s
        ({ outcome := .success out, finished := true, readyFault := none,
           settleFault := none } :: rest) llm agent (n + 1) =
      (out ++ "\n",
        setPlan s pid { plan with post_statuses := plan.post_statuses.set i "posted" }) := by
  have hidx : i < plan.posts.length := ((firstActive_eq_some_iff _ _ _).mp hsel).1
  have hs₁ : lookupPlan
      (setPlan s pid { plan with post_statuses := plan.post_statuses.set i "ready" }).plans
      pid = some { plan with post_statuses := plan.post_statuses.set i "ready" } :=
    lookup_setPlanList_self _ _ _
  unfold TwitterPlanningFlow.execute
  simp only [TwitterPlanningFlow.flowLoop, List.headD_cons,
    getCurrentPostInfo_selects s pid plan i hpid hplan hcons hsel,
    markPostPosted_ok _ pid _ i hpid hs₁ (by simpa using hidx)
      ⟨by simp [hcons.1], by simp [hcons.2]⟩,
    setPlan_setPlan, List.set_set, String.empty_append, if_true]

/-- Witness for the amended C3 on a concrete two-post plan. -/
theorem c3_finished_stops_loop_witness :
    TwitterPlanningFlow.execute "p" storeTwo
        [{ outcome := .success "done0", finished := true, readyFault := none,
           settleFault := none }] (some "summary") none 5 =
      ("done0" ++ "\n",
        setPlan storeTwo "p"
          { plan_id := "p", title := "T", posts := [post0, post1],
            post_statuses := ["draft", "draft"].set 0 "posted", post_notes := ["", ""] }) :=
  c3_finished_stops_loop storeTwo "p"
    { plan_id := "p", title := "T", posts := [post0, post1],
      post_statuses := ["draft", "draft"], post_notes := ["", ""] }
    "done0" [] (some "summary") none 0 4 (by decide) (by decide) ⟨rfl, rfl⟩ (by decide)

/-- Claim C7: when the executor raises error `e` on the selected post `k`,
the iteration marks post `k` failed with the non-empty note
`"Error: " ++ e` (which contains the error description), touches nothing
else, and hands control to the next loop iteration; the next selection scan
picks `k + 1` whenever that index exists and is active. -/
theorem c7_executor_error_degrades_to_failed (s : PlanStore) (pid : String)
    (plan : TwitterPlan) (e : String) (rest : List TwitterPlanningFlow.ExecStep)
    (llm agent : Option String) (k n : Nat)
    (hpid : pid ≠ "") (hplan : lookupPlan s.plans pid = some plan)
    (hcons : planConsistent plan)
    (hsel : TwitterPlanningFlow.firstActive plan.posts plan.post_statuses = some k) :
    (TwitterPlanningFlow.execute pid s
        ({ outcome := .failure e, finished := false, readyFault := none,
           settleFault := none } :: rest) llm agent (n + 1) =
      TwitterPlanningFlow.flowLoop pid llm agent n
        (setPlan s pid
          { plan with post_statuses := plan.post_statuses.set k "failed"
                      post_notes := plan.post_notes.set k ("Error: " ++ e) })
        rest ("Error executing post " ++ toString k ++ ": " ++ e ++ "\n")) ∧
    ("Error: " ++ e ≠ "") ∧
    (∃ pre, "Error: " ++ e = pre ++ e) ∧
    (k + 1 < plan.posts.length →
      TwitterPlanningFlow.isActive
        (TwitterPlanningFlow.statusAt plan.post_statuses (k + 1)) = true →
      (TwitterPlanningFlow.getCurrentPostInfo
        (setPlan s pid
          { plan with post_statuses := plan.post_statuses.set k "failed"
                      post_notes := plan.post_notes.set k ("Error: " ++ e) })
        pid none).1 = some (k + 1)) := by
  have hidx : k < plan.posts.length := ((firstActive_eq_some_iff _ _ _).mp hsel).1
  have hkS : k < plan.post_statuses.length := by
    obtain ⟨h1, h2⟩ := hcons
    omega
  have hnote : ("Error: " ++ e) ≠ "" := by
    intro hc
    have hdata := congrArg String.data hc
    rw [String.data_append] at hdata
    simp at hdata
  have hs₁ : lookupPlan
      (setPlan s pid { plan with post_statuses := plan.post_statuses.set k "ready" }).plans
      pid = some { plan with post_statuses := plan.post_statuses.set k "ready" } :=
    lookup_setPlanList_self _ _ _
  refine ⟨?_, hnote, ⟨"Error: ", rfl⟩, ?_⟩
  · unfold TwitterPlanningFlow.execute
    simp only [TwitterPlanningFlow.flowLoop, List.headD_cons, List.tail_cons,
      getCurrentPostInfo_selects s pid plan k hpid hplan hcons hsel,
      markPostFailed_ok _ pid _ k ("Error: " ++ e) hpid hs₁ (by simpa using hidx)
        ⟨by simp [hcons.1], by simp [hcons.2]⟩ hnote,
      setPlan_setPlan, List.set_set, String.empty_append, Bool.false_eq_true, if_false]
  · intro hk1 hact
    have hlk : lookupPlan
        (setPlan s pid
          { plan with post_statuses := plan.post_statuses.set k "failed"
                      post_notes := plan.post_notes.set k ("Error: " ++ e) }).plans pid =
        some { plan with post_statuses := plan.post_statuses.set k "failed"
                         post_notes := plan.post_notes.set k ("Error: " ++ e) } :=
      lookup_setPlanList_self _ _ _
    have hfa : TwitterPlanningFlow.firstActive plan.posts
        (plan.post_statuses.set k "failed") = some (k + 1) := by
      apply (firstActive_eq_some_iff _ _ _).mpr
      refine ⟨hk1, ?_, ?_⟩
      · rw [statusAt_set_ne _ _ _ _ (by omega)]
        exact hact
      · intro j hj
        rcases Nat.lt_or_ge j k with hjk | hjk
        · rw [statusAt_set_ne _ _ _ _ (by omega)]
          exact ((firstActive_eq_some_iff _ _ _).mp hsel).2.2 j hjk
        · obtain rfl : j = k := by omega
          rw [statusAt_set_self _ _ _ hkS]
          rfl
    simp [TwitterPlanningFlow.getCurrentPostInfo, hpid, hlk, hfa]

/-- Witness for C7 on a concrete two-post plan, both posts active: the
executor fails on post 0 and the next scan selects post 1. -/
theorem c7_executor_error_degrades_to_failed_witness :
    (TwitterPlanningFlow.execute "p" storeTwo
        [{ outcome := .failure "boom", finished := false, readyFault := none,
           settleFault := none }] (some "summary") none 4 =
      TwitterPlanningFlow.flowLoop "p" (some "summary") none 3
        (setPlan storeTwo "p"
          { plan_id := "p", title := "T", posts := [post0, post1],
            post_statuses := ["draft", "draft"].set 0 "failed",
            post_notes := ["", ""].set 0 ("Error: " ++ "boom") })
        [] ("Error executing post " ++ toString 0 ++ ": " ++ "boom" ++ "\n")) ∧
    ("Error: " ++ "boom" ≠ "") ∧
    (∃ pre, "Error: " ++ "boom" = pre ++ "boom") ∧
    (0 + 1 < [post0, post1].length →
      TwitterPlanningFlow.isActive
        (TwitterPlanningFlow.statusAt ["draft", "draft"] (0 + 1)) = true →
      (TwitterPlanningFlow.getCurrentPostInfo
        (setPlan storeTwo "p"
          { plan_id := "p", title := "T", posts := [post0, post1],
            post_statuses := ["draft", "draft"].set 0 "failed",
            post_notes := ["", ""].set 0 ("Error: " ++ "boom") })
        "p" none).1 = some (0 + 1)) :=
  c7_executor_error_degrades_to_failed storeTwo "p"
    { plan_id := "p", title := "T", posts := [post0, post1],
      post_statuses := ["draft", "draft"], post_notes := ["", ""] }
    "boom" [] (some "summary") none 0 3 (by decide) (by decide) ⟨rfl, rfl⟩ (by decide)

/-- Claim C2 counterexample: a store error raised by the mark-as-failed
bookkeeping call (after an executor failure) is not caught inside the loop:
it propagates to the whole-flow handler, which replaces the entire result
with the failure message — the run aborts, and the plan keeps status
"ready" with an empty note, so no in-memory correction happened — refuting
the claim that every bookkeeping store error inside the loop is caught and
degraded. -/
theorem c2_settle_fault_aborts_run :
    TwitterPlanningFlow.execute "p1" storeOne
        [{ outcome := .failure "boom", finished := false, readyFault := none,
           settleFault := some .pyIndexError }] (some "summary") none 5 =
      ("Execution failed: list assignment index out of range",
       { plans := [("p1", { plan_id := "p1", title := "Campaign", posts := [post0],
                            post_statuses := ["ready"], post_notes := [""] })],
         current_plan_id := some "p1" }) ∧
    (lookupPlan
        (TwitterPlanningFlow.execute "p1" storeOne
          [{ outcome := .failure "boom", finished := false, readyFault := none,
             settleFault := some .pyIndexError }] (some "summary") none 5).2.plans
      "p1").map TwitterPlan.post_notes = some [""] := by
  constructor
  · rfl
  · rfl

/-- Claim C2 (amended): a store error during the mark-as-ready bookkeeping
or the mark-as-posted bookkeeping is caught and degraded to a direct
in-memory correction of the plan's statuses (the respective fallback list
surgery); a store error during the mark-as-failed bookkeeping after an
executor failure is not guarded and propagates, aborting the run through the
whole-flow handler. -/
theorem c2_bookkeeping_faults (s : PlanStore) (pid : String) (plan : TwitterPlan)
    (i : Nat) (note : String) (e : ToolErr)
    (hplan : lookupPlan s.plans pid = some plan) :
    TwitterPlanningFlow.markPostReady s pid i (some e) =
      setPlan s pid
        { plan with
          post_statuses := TwitterPlanningFlow.fallbackMarkReady plan.post_statuses i } ∧
    TwitterPlanningFlow.markPostPosted s pid (some i) (some e) =
      setPlan s pid
        { plan with
          post_statuses := TwitterPlanningFlow.fallbackMarkPosted plan.post_statuses i } ∧
    TwitterPlanningFlow.markPostFailed s pid i note (some e) = .error e :=
  ⟨markPostReady_fault s pid plan i e hplan,
   markPostPosted_fault s pid plan i e hplan, rfl⟩

/-- Witness for the amended C2 at a concrete store, index and error. -/
theorem c2_bookkeeping_faults_witness :
    TwitterPlanningFlow.markPostReady storeOne "p1" 0 (some .noActivePlan) =
      setPlan storeOne "p1"
        { plan_id := "p1", title := "Campaign", posts := [post0],
          post_statuses := TwitterPlanningFlow.fallbackMarkReady ["draft"] 0,
          post_notes := [""] } ∧
    TwitterPlanningFlow.markPostPosted storeOne "p1" (some 0) (some .noActivePlan) =
      setPlan storeOne "p1"
        { plan_id := "p1", title := "Campaign", posts := [post0],
          post_statuses := TwitterPlanningFlow.fallbackMarkPosted ["draft"] 0,
          post_notes := [""] } ∧
    TwitterPlanningFlow.markPostFailed storeOne "p1" 0 "Error: x" (some .noActivePlan) =
      .error .noActivePlan :=
  c2_bookkeeping_faults storeOne "p1"
    { plan_id := "p1", title := "Campaign", posts := [post0],
      post_statuses := ["draft"], post_notes := [""] }
    0 "Error: x" .noActivePlan (by decide)
